import Mathlib

/-!
Shallow embedding of `src/frontMatter.ts` from the number-headings-obsidian
plugin: the compact front-matter settings decoder, the legacy per-key decoder,
the compact encoder, and the routine that splices the encoded settings back
into a document's front matter.

JavaScript strings are modelled as `List Char`; the handful of JS string
primitives the module uses (split, trim, startsWith, substring, parseInt,
template interpolation of integers) are given faithful list-level models
below, prefixed with `js`.
-/

set_option maxHeartbeats 1000000

abbrev Str := List Char

/-- JS whitespace test used by `String.prototype.trim`. -/
def isJsWS (c : Char) : Bool := c.isWhitespace

/-- Model of `String.prototype.trim`: drop whitespace from both ends. -/
def jsTrim (s : Str) : Str :=
  ((s.dropWhile isJsWS).reverse.dropWhile isJsWS).reverse

/-- Model of `subject.startsWith(pat)`. -/
def strStartsWith : Str → Str → Bool
  | _, [] => true
  | [], _ :: _ => false
  | c :: cs, p :: ps => c == p && strStartsWith cs ps

/-- Model of `String.prototype.split` on a single-character separator:
`"".split(c)` is `[""]`, and every occurrence of the separator produces a new
(possibly empty) piece. -/
def jsSplit (sep : Char) : Str → List Str
  | [] => [[]]
  | c :: cs =>
    if c = sep then [] :: jsSplit sep cs
    else
      match jsSplit sep cs with
      | [] => [[c]]
      | h :: t => (c :: h) :: t

/-- Hex-digit test for `parseInt`'s `0x` form. -/
def isHexDigit (c : Char) : Bool :=
  c.isDigit || ('a' ≤ c && c ≤ 'f') || ('A' ≤ c && c ≤ 'F')

/-- Numeric value of a hex digit. -/
def hexVal (c : Char) : Nat :=
  if c.isDigit then c.toNat - 48
  else if 'a' ≤ c ∧ c ≤ 'f' then c.toNat - 87
  else if 'A' ≤ c ∧ c ≤ 'F' then c.toNat - 55
  else 0

/-- Model of JS `parseInt(s)` (no explicit radix): skip leading whitespace,
optional sign, optional `0x`/`0X` hex prefix, then the longest digit run;
`none` models `NaN`. -/
def jsParseInt (s : Str) : Option Int :=
  let t := s.dropWhile isJsWS
  let signed : Bool × Str :=
    match t with
    | '-' :: r => (true, r)
    | '+' :: r => (false, r)
    | _ => (false, t)
  let hexed : Bool × Str :=
    match signed.2 with
    | '0' :: 'x' :: r => (true, r)
    | '0' :: 'X' :: r => (true, r)
    | _ => (false, signed.2)
  let digits := if hexed.1 then hexed.2.takeWhile isHexDigit
                else hexed.2.takeWhile Char.isDigit
  if digits.isEmpty then none
  else
    let base : Nat := if hexed.1 then 16 else 10
    let v : Nat := digits.foldl (fun acc c => acc * base + hexVal c) 0
    some (if signed.1 then -(v : Int) else (v : Int))

/-- Model of JS template interpolation of an integer (`String(n)`). -/
def jsIntToStr (n : Int) : Str := (toString n).toList

/-- Raw front-matter values as the JS code can observe them: `null` (also the
result of looking up an absent key), booleans, numbers (restricted to the
integers the module manipulates) and strings. -/
inductive JSValue where
  | null
  | bool (b : Bool)
  | num (n : Int)
  | str (s : Str)
deriving DecidableEq, Repr

/-- JS truthiness of a value, as used by `if (entry)`. -/
def jsTruthy : JSValue → Bool
  | .null => false
  | .bool b => b
  | .num n => decide (n ≠ 0)
  | .str s => decide (s ≠ [])

/-- JS `String(v)` conversion. -/
def jsToString : JSValue → Str
  | .null => ("null").toList
  | .bool true => ("true").toList
  | .bool false => ("false").toList
  | .num n => jsIntToStr n
  | .str s => s

/-- JS nullish coalescing `a ?? b` (our values have no `undefined` distinct
from `null`). -/
def jsCoalesce (a b : JSValue) : JSValue :=
  match a with
  | .null => b
  | _ => a

/-- Reading a JS value stored into a boolean-typed binding. -/
def jsAsBool : JSValue → Bool
  | .bool b => b
  | _ => false

/-- Reading a JS value stored into a number-typed binding. -/
def jsAsInt : JSValue → Int
  | .num n => n
  | _ => 0

/-- Model of Obsidian's `FrontMatterCache`: the parsed metadata block, with
its association list of keys and the line on which the block starts.
Modelled from the spec: the host metadata abstraction is an external
collaborator ("a metadata-lookup function returning a single named entry's raw
value or absent", spec section 6). -/
structure FrontMatterCache where
  entries : List (String × JSValue)
  startLine : Nat
deriving DecidableEq, Repr

/-- Modelled from the spec: Obsidian's `parseFrontMatterEntry`, the external
metadata-lookup function "returning a single named entry's raw value or
absent" (spec section 6); absence surfaces to JS as `null`. -/
def parseFrontMatterEntry (fm : FrontMatterCache) (key : String) : JSValue :=
  (fm.entries.lookup key).getD .null

/-- The settings record of the plugin (`NumberHeadingsPluginSettings` in
`settingsTypes.ts`, mirrored field-for-field from its uses in
`frontMatter.ts`). -/
structure NumberHeadingsPluginSettings where
  skipTopLevel : Bool
  firstLevel : Int
  maxLevel : Int
  contents : Str
  styleLevel1 : Str
  styleLevelOther : Str
  auto : Bool
  separator : Str
deriving DecidableEq, Repr

/-- Modelled from the spec: the validity predicate for `firstLevel` and
`maxLevel` from the missing `settingsTypes.ts` ("topmost/deepest heading depth
to number, valid range enforced by an external predicate", spec section 3);
heading depths range over 1..6. -/
def isValidFirstOrMaxLevel (n : Int) : Bool := decide (1 ≤ n ∧ n ≤ 6)

/-- Modelled from the spec: the contents-validity predicate from the missing
`settingsTypes.ts` ("heading text used to mark a table of contents; empty
means disabled", spec section 3): any non-empty heading text. -/
def isValidContents (s : Str) : Bool := decide (s ≠ [])

/-- Modelled from the spec: the level-style validity predicate from the
missing `settingsTypes.ts` ("an enumerated token controlling how a heading
level's number is rendered (e.g., numeric, lettered)", spec glossary): the
numeric style `1` and the lettered style `A`. -/
def isValidLevelStyle (s : Str) : Bool :=
  s == ("1").toList || s == ("A").toList

/-- Modelled from the spec: the separator validity predicate from the missing
`settingsTypes.ts` ("single trailing character appended after a rendered
number, from a fixed enumerated set", spec section 3). -/
def isValidSeparator (s : Str) : Bool :=
  s == [':'] || s == ['.'] || s == ['-']

/-- Modelled from the spec: the flag validity predicate from the missing
`settingsTypes.ts` (boolean-valued legacy entries are accepted only when they
really are booleans). -/
def isValidFlag (v : JSValue) : Bool :=
  match v with
  | .bool _ => true
  | _ => false

/-- `isValidFirstOrMaxLevel` applied to a raw front-matter value, as the
legacy decoder does: non-numbers fail the predicate. -/
def isValidFirstOrMaxLevelEntry (v : JSValue) : Bool :=
  match v with
  | .num n => isValidFirstOrMaxLevel n
  | _ => false

/-- Modelled from the spec: `DEFAULT_SETTINGS` from the missing
`settingsTypes.ts`; every field holds a valid value of its domain (spec
section 3 invariant), `contents` empty means disabled, automatic numbering is
off by default. -/
def DEFAULT_SETTINGS : NumberHeadingsPluginSettings :=
  { skipTopLevel := false
    firstLevel := 1
    maxLevel := 6
    contents := []
    styleLevel1 := ("1").toList
    styleLevelOther := ("1").toList
    auto := false
    separator := [':'] }

def AUTO_PART_KEY : Str := ("auto").toList
def FIRST_LEVEL_PART_KEY : Str := ("first-level").toList
def MAX_LEVEL_PART_KEY : Str := ("max").toList
def CONTENTS_PART_KEY : Str := ("contents").toList

/-- The formatting-descriptor fallback of the loop body ("Parse formatting
part" in the source): strip a valid separator from the end, split the rest on
`.`, read the optional `_` skip marker, then the two style tokens. -/
def fmtApply (settings : NumberHeadingsPluginSettings) (cleanPart : Str) :
    NumberHeadingsPluginSettings :=
  let lastChar := cleanPart.getLast?.getD ' '
  let settings1 :=
    if isValidSeparator [lastChar] then { settings with separator := [lastChar] } else settings
  let remainingPart :=
    if isValidSeparator [lastChar] then cleanPart.dropLast else cleanPart
  let descriptors := jsSplit '.' remainingPart
  let skipMarked : Bool :=
    decide (descriptors.length > 1) && (descriptors.headD [] == ['_'])
  let settings2 :=
    if skipMarked then { settings1 with skipTopLevel := true }
    else { settings1 with skipTopLevel := false }
  let firstNumberedDescriptor : Nat := if skipMarked then 1 else 0
  if descriptors.length - firstNumberedDescriptor ≥ 2 then
    let styleLevel1 := descriptors.getD firstNumberedDescriptor []
    let settings3 :=
      if isValidLevelStyle styleLevel1 then { settings2 with styleLevel1 := styleLevel1 }
      else settings2
    let styleLevelOther := descriptors.getD (firstNumberedDescriptor + 1) []
    if isValidLevelStyle styleLevelOther then { settings3 with styleLevelOther := styleLevelOther }
    else settings3
  else settings2

/-- Loop body of `parseCompactFrontMatterSettings` acting on the trimmed
part: classify the part and update the accumulated settings exactly as the
source's `if`/`else if` chain does. -/
def processCleanPart (settings : NumberHeadingsPluginSettings) (cleanPart : Str) :
    NumberHeadingsPluginSettings :=
  if cleanPart.length = 0 then settings
  else if cleanPart = AUTO_PART_KEY then
    { settings with auto := true }
  else if strStartsWith cleanPart FIRST_LEVEL_PART_KEY then
    let nstring := cleanPart.drop (FIRST_LEVEL_PART_KEY.length + 1)
    match jsParseInt nstring with
    | some n => if isValidFirstOrMaxLevel n then { settings with firstLevel := n } else settings
    | none => settings
  else if strStartsWith cleanPart MAX_LEVEL_PART_KEY then
    let nstring := cleanPart.drop (MAX_LEVEL_PART_KEY.length + 1)
    match jsParseInt nstring with
    | some n => if isValidFirstOrMaxLevel n then { settings with maxLevel := n } else settings
    | none => settings
  else if strStartsWith cleanPart CONTENTS_PART_KEY then
    if cleanPart.length ≤ CONTENTS_PART_KEY.length + 1 then settings
    else
      let tocHeading := cleanPart.drop (CONTENTS_PART_KEY.length + 1)
      if isValidContents tocHeading then { settings with contents := tocHeading } else settings
  else
    -- Parse formatting part
    fmtApply settings cleanPart

/-- One iteration of the `for (const part of parts)` loop: trim, then
classify. -/
def processPart (settings : NumberHeadingsPluginSettings) (part : Str) :
    NumberHeadingsPluginSettings :=
  processCleanPart settings (jsTrim part)

/-- The compact decoder applied to the raw string value of the
`number headings` key: split on commas and fold the loop body over the parts,
starting from a copy of the defaults. -/
def parseCompactValue (entryString : Str) : NumberHeadingsPluginSettings :=
  (jsSplit ',' entryString).foldl processPart DEFAULT_SETTINGS

def numberHeadingsKey : String := "number headings"

/-- `parseCompactFrontMatterSettings`: look up the `number headings` entry;
when it is truthy, decode its string form, otherwise signal absence. -/
def parseCompactFrontMatterSettings (fm : FrontMatterCache) :
    Option NumberHeadingsPluginSettings :=
  let entry := parseFrontMatterEntry fm numberHeadingsKey
  if jsTruthy entry then some (parseCompactValue (jsToString entry))
  else none

def skipKeyNew : String := "number-headings-skip-top-level"
def skipKeyOld : String := "header-numbering-skip-top-level"
def maxKeyNew : String := "number-headings-max-level"
def maxKeyOld : String := "header-numbering-max-level"
def style1KeyNew : String := "number-headings-style-level-1"
def style1KeyOld : String := "header-numbering-style-level-1"
def styleOtherKeyNew : String := "number-headings-style-level-other"
def styleOtherKeyOld : String := "header-numbering-style-level-other"
def autoKeyNew : String := "number-headings-auto"
def autoKeyOld : String := "header-numbering-auto"

/-- `getFrontMatterSettingsOrAlternative`: compact decoder first; on absence,
the legacy per-key path; with no front matter at all, the alternative
settings verbatim. -/
def getFrontMatterSettingsOrAlternative
    (frontmatter : Option FrontMatterCache)
    (alternativeSettings : NumberHeadingsPluginSettings) :
    NumberHeadingsPluginSettings :=
  match frontmatter with
  | some fm =>
    match parseCompactFrontMatterSettings fm with
    | some decompactedSettings => decompactedSettings
    | none =>
      -- NOTE: Everything below is for backwards compatibility only
      let skipTopLevelEntry :=
        jsCoalesce (parseFrontMatterEntry fm skipKeyNew) (parseFrontMatterEntry fm skipKeyOld)
      let skipTopLevel :=
        if isValidFlag skipTopLevelEntry then jsAsBool skipTopLevelEntry
        else alternativeSettings.skipTopLevel
      let maxLevelEntry :=
        jsCoalesce (parseFrontMatterEntry fm maxKeyNew) (parseFrontMatterEntry fm maxKeyOld)
      let maxLevel :=
        if isValidFirstOrMaxLevelEntry maxLevelEntry then jsAsInt maxLevelEntry
        else alternativeSettings.maxLevel
      let styleLevel1Entry :=
        jsToString (jsCoalesce (parseFrontMatterEntry fm style1KeyNew)
          (parseFrontMatterEntry fm style1KeyOld))
      let styleLevel1 :=
        if isValidLevelStyle styleLevel1Entry then styleLevel1Entry
        else alternativeSettings.styleLevel1
      let styleLevelOtherEntry :=
        jsToString (jsCoalesce (parseFrontMatterEntry fm styleOtherKeyNew)
          (parseFrontMatterEntry fm styleOtherKeyOld))
      let styleLevelOther :=
        if isValidLevelStyle styleLevelOtherEntry then styleLevelOtherEntry
        else alternativeSettings.styleLevelOther
      let autoEntry :=
        jsCoalesce (parseFrontMatterEntry fm autoKeyNew) (parseFrontMatterEntry fm autoKeyOld)
      let auto :=
        if isValidFlag autoEntry then jsAsBool autoEntry
        else alternativeSettings.auto
      { DEFAULT_SETTINGS with
          skipTopLevel := skipTopLevel
          maxLevel := maxLevel
          styleLevel1 := styleLevel1
          styleLevelOther := styleLevelOther
          auto := auto }
  | none => alternativeSettings

/-- `settingsToCompactFrontMatterValue`: serialize a settings record into the
compact comma-separated string. -/
def settingsToCompactFrontMatterValue (settings : NumberHeadingsPluginSettings) : Str :=
  let autoPart : Str := if settings.auto then ("auto, ").toList else []
  let firstLevelPart : Str :=
    ("first-level ").toList ++ jsIntToStr settings.firstLevel ++ (", ").toList
  let maxPart : Str := ("max ").toList ++ jsIntToStr settings.maxLevel ++ (", ").toList
  let contentsPart : Str :=
    if settings.contents.length > 0 then
      ("contents ").toList ++ settings.contents ++ (", ").toList
    else []
  let skipTopLevelString : Str := if settings.skipTopLevel then ("_.").toList else []
  let stylePart : Str :=
    skipTopLevelString ++ settings.styleLevel1 ++ ['.'] ++ settings.styleLevelOther ++
      settings.separator
  autoPart ++ firstLevelPart ++ maxPart ++ contentsPart ++ stylePart

/-- A document as its list of lines, the line-addressable view the Editor
interface exposes (spec section 6: "get line text by index, last line index,
replace-a-position-range-with-text"). -/
abbrev Doc := List Str

/-- `editor.getLine(i)`. -/
def getLine (doc : Doc) (i : Nat) : Str := doc.getD i []

/-- `editor.lastLine()`: index of the document's last line. -/
def lastLine (doc : Doc) : Nat := doc.length - 1

/-- Line decomposition of a newline-terminated text (every `replaceRange`
call in the module passes newline-terminated text at `ch = 0` positions). -/
def linesOfText (t : Str) : List Str := (jsSplit '\n' t).dropLast

/-- Modelled from the spec: `editor.replaceRange(t, from, to)` at the
`ch = 0` positions the module uses — replace the span from the start of line
`fromLine` to the start of line `toLine` with the (newline-terminated)
text `t`. -/
def replaceLines (doc : Doc) (t : Str) (fromLine toLine : Nat) : Doc :=
  doc.take fromLine ++ linesOfText t ++ doc.drop toLine

/-- `findLineWhichStartsWith`: linear scan with `i` from `afterLine` while
`i < editor.lastLine()`, returning the first line index whose text starts
with `search`. -/
def findLineWhichStartsWith (doc : Doc) (search : Str) (afterLine : Nat) : Option Nat :=
  (List.range' afterLine (lastLine doc - afterLine)).find?
    (fun i => strStartsWith (getLine doc i) search)

def keyNotFoundMsg : String :=
  "Number Headings Plugin: \"number headings\" key exists but not found."

/-- `saveSettingsToFrontMatter`, returning the edited document or the thrown
error message. -/
def saveSettingsToFrontMatter
    (frontmatter : Option FrontMatterCache)
    (doc : Doc)
    (settings : NumberHeadingsPluginSettings) : Except String Doc :=
  match frontmatter with
  | some fm =>
    -- Front matter already exists, so we'll need to insert the settings into it
    let frontMatterLine := fm.startLine
    let v := settingsToCompactFrontMatterValue settings
    let frontMatterAdditions := ("number headings: ").toList ++ v ++ ['\n']
    if (fm.entries.lookup numberHeadingsKey).isSome then
      -- Key already present, replace it
      match findLineWhichStartsWith doc (numberHeadingsKey).toList frontMatterLine with
      | none => .error keyNotFoundMsg
      | some keyLine => .ok (replaceLines doc frontMatterAdditions keyLine (keyLine + 1))
    else
      -- Key not present, insert new key
      .ok (replaceLines doc frontMatterAdditions (frontMatterLine + 1) (frontMatterLine + 1))
  | none =>
    -- No front matter found, create it from scratch
    let v := settingsToCompactFrontMatterValue settings
    let newFrontMatter :=
      ("---\nnumber headings: ").toList ++ v ++ ("\n---\n\n").toList
    .ok (replaceLines doc newFrontMatter 0 0)

/-- The `.`-descriptor list the formatting fallback computes for a trimmed
part (after stripping a valid trailing separator). -/
def fmtDescriptors (cp : Str) : List Str :=
  jsSplit '.' (if isValidSeparator [cp.getLast?.getD ' '] then cp.dropLast else cp)

/-- The index of the first numbered descriptor (1 when the `_` skip marker is
present, 0 otherwise). -/
def fmtIndex (cp : Str) : Nat :=
  if decide ((fmtDescriptors cp).length > 1) && ((fmtDescriptors cp).headD [] == ['_'])
  then 1 else 0

/-- Whether a trimmed part is the `auto` token (and so writes `auto`). -/
def touchesAuto (cp : Str) : Bool := cp == AUTO_PART_KEY

/-- Whether the level value after the given key length parses and is valid. -/
def parsesLevelAfter (cp : Str) (keyLen : Nat) : Bool :=
  match jsParseInt (cp.drop (keyLen + 1)) with
  | some n => isValidFirstOrMaxLevel n
  | none => false

/-- Whether a trimmed part is classified as a first-level token that
successfully writes `firstLevel`. -/
def touchesFirstLevel (cp : Str) : Bool :=
  decide (cp ≠ []) && !(cp == AUTO_PART_KEY) &&
    strStartsWith cp FIRST_LEVEL_PART_KEY &&
    parsesLevelAfter cp FIRST_LEVEL_PART_KEY.length

/-- Whether a trimmed part is classified as a max token that successfully
writes `maxLevel`. -/
def touchesMaxLevel (cp : Str) : Bool :=
  decide (cp ≠ []) && !(cp == AUTO_PART_KEY) &&
    !strStartsWith cp FIRST_LEVEL_PART_KEY &&
    strStartsWith cp MAX_LEVEL_PART_KEY &&
    parsesLevelAfter cp MAX_LEVEL_PART_KEY.length

/-- Whether a trimmed part is classified as a contents token that
successfully writes `contents`. -/
def touchesContents (cp : Str) : Bool :=
  decide (cp ≠ []) && !(cp == AUTO_PART_KEY) &&
    !strStartsWith cp FIRST_LEVEL_PART_KEY &&
    !strStartsWith cp MAX_LEVEL_PART_KEY &&
    strStartsWith cp CONTENTS_PART_KEY &&
    decide (cp.length > CONTENTS_PART_KEY.length + 1) &&
    isValidContents (cp.drop (CONTENTS_PART_KEY.length + 1))

/-- Whether a trimmed part falls through to the formatting-descriptor
fallback (which always writes `skipTopLevel`). -/
def reachesFormatting (cp : Str) : Bool :=
  decide (cp ≠ []) && !(cp == AUTO_PART_KEY) &&
    !strStartsWith cp FIRST_LEVEL_PART_KEY &&
    !strStartsWith cp MAX_LEVEL_PART_KEY &&
    !strStartsWith cp CONTENTS_PART_KEY

/-- Whether a trimmed part writes `skipTopLevel` (always, in the formatting
fallback). -/
def touchesSkipTopLevel (cp : Str) : Bool := reachesFormatting cp

/-- Whether a trimmed part writes `separator` (formatting fallback with a
valid last character). -/
def touchesSeparator (cp : Str) : Bool :=
  reachesFormatting cp && isValidSeparator [cp.getLast?.getD ' ']

/-- Whether a trimmed part writes `styleLevel1`. -/
def touchesStyleLevel1 (cp : Str) : Bool :=
  reachesFormatting cp &&
    decide ((fmtDescriptors cp).length - fmtIndex cp ≥ 2) &&
    isValidLevelStyle ((fmtDescriptors cp).getD (fmtIndex cp) [])

/-- Whether a trimmed part writes `styleLevelOther`. -/
def touchesStyleLevelOther (cp : Str) : Bool :=
  reachesFormatting cp &&
    decide ((fmtDescriptors cp).length - fmtIndex cp ≥ 2) &&
    isValidLevelStyle ((fmtDescriptors cp).getD (fmtIndex cp + 1) [])

/-- Contents values reachable by the decoder: non-empty, comma-free (each
part comes from the comma split), and ending in a non-whitespace character
(each part is trimmed). -/
def GoodContents (C : Str) : Prop :=
  C ≠ [] ∧ ',' ∉ C ∧ isJsWS ((C.getLast?).getD 'x') = false

/-- Settings records reachable by the compact decoder: every valued field is
valid (the defaults are valid, and the decoder only writes validated
values), and `contents` is empty or a reachable contents string. -/
def GoodSettings (R : NumberHeadingsPluginSettings) : Prop :=
  isValidFirstOrMaxLevel R.firstLevel = true ∧
  isValidFirstOrMaxLevel R.maxLevel = true ∧
  isValidLevelStyle R.styleLevel1 = true ∧
  isValidLevelStyle R.styleLevelOther = true ∧
  isValidSeparator R.separator = true ∧
  (R.contents = [] ∨ GoodContents R.contents)

/-! ### Claim theorems: decoder dispatch and classification -/

/-- C1 counterexample: the metadata block defines the `number headings` key
with an empty (falsy) value, yet the compact decoder signals absence and the
legacy per-key path runs (it picks up the legacy max-level key), contradicting
the claim that the legacy path is never exercised when the key is present. -/
theorem claim1_counterexample :
    ((FrontMatterCache.mk [(numberHeadingsKey, .str []), (maxKeyNew, .num 5)]
        0).entries.lookup numberHeadingsKey).isSome = true ∧
    parseCompactFrontMatterSettings
      (FrontMatterCache.mk [(numberHeadingsKey, .str []), (maxKeyNew, .num 5)] 0) = none ∧
    getFrontMatterSettingsOrAlternative
      (some (FrontMatterCache.mk [(numberHeadingsKey, .str []), (maxKeyNew, .num 5)] 0))
      DEFAULT_SETTINGS = { DEFAULT_SETTINGS with maxLevel := 5 } := by
  refine ⟨rfl, rfl, ?_⟩
  decide

/-- C1 amended: the compact-format decoder is used, and the legacy path
skipped, exactly when the `number headings` entry is truthy (a non-empty
string, non-zero number, or `true`); a present but falsy (empty/null) value
falls through to the legacy path just as absence does. -/
theorem claim1_amended (fm : FrontMatterCache) (alt : NumberHeadingsPluginSettings)
    (h : jsTruthy (parseFrontMatterEntry fm numberHeadingsKey) = true) :
    parseCompactFrontMatterSettings fm =
      some (parseCompactValue (jsToString (parseFrontMatterEntry fm numberHeadingsKey))) ∧
    getFrontMatterSettingsOrAlternative (some fm) alt =
      parseCompactValue (jsToString (parseFrontMatterEntry fm numberHeadingsKey)) := by
  have hc : parseCompactFrontMatterSettings fm =
      some (parseCompactValue (jsToString (parseFrontMatterEntry fm numberHeadingsKey))) := by
    unfold parseCompactFrontMatterSettings
    simp [h]
  refine ⟨hc, ?_⟩
  simp only [getFrontMatterSettingsOrAlternative, hc]

/-- C1 amended, witness at a concrete metadata block holding a truthy value. -/
theorem claim1_amended_witness :
    jsTruthy (parseFrontMatterEntry
      (FrontMatterCache.mk [(numberHeadingsKey, .str (("auto").toList))] 0)
      numberHeadingsKey) = true ∧
    getFrontMatterSettingsOrAlternative
      (some (FrontMatterCache.mk [(numberHeadingsKey, .str (("auto").toList))] 0))
      DEFAULT_SETTINGS =
      parseCompactValue (jsToString (parseFrontMatterEntry
        (FrontMatterCache.mk [(numberHeadingsKey, .str (("auto").toList))] 0)
        numberHeadingsKey)) :=
  ⟨by decide, (claim1_amended _ DEFAULT_SETTINGS (by decide)).2⟩

/-- C2 counterexample: after `_.1.A-` has set `skipTopLevel := true`, the
unrecognized part `junk` (no prefix matches, last character not a separator,
no `.`-descriptors) does NOT leave the record unchanged: it resets
`skipTopLevel` to `false`. -/
theorem claim2_counterexample :
    (parseCompactValue (("_.1.A-").toList)).skipTopLevel = true ∧
    (parseCompactValue (("_.1.A-, junk").toList)).skipTopLevel = false ∧
    processPart (parseCompactValue (("_.1.A-").toList)) ((" junk").toList) ≠
      parseCompactValue (("_.1.A-").toList) := by
  refine ⟨rfl, rfl, ?_⟩
  decide

/-- C2 amended: a comma-separated part matching none of the recognized
prefixes and not parseable as a formatting descriptor (its last character is
not a valid separator and it contains no `.`-split structure) leaves `auto`,
`firstLevel`, `maxLevel`, `contents`, `styleLevel1`, `styleLevelOther` and
`separator` unchanged, but unconditionally overwrites `skipTopLevel` with
`false` (the formatting fallback always assigns `skipTopLevel`). -/
theorem claim2_amended (s : NumberHeadingsPluginSettings) (p : Str)
    (hne : jsTrim p ≠ [])
    (hauto : jsTrim p ≠ AUTO_PART_KEY)
    (hfl : strStartsWith (jsTrim p) FIRST_LEVEL_PART_KEY = false)
    (hmax : strStartsWith (jsTrim p) MAX_LEVEL_PART_KEY = false)
    (hcont : strStartsWith (jsTrim p) CONTENTS_PART_KEY = false)
    (hsep : isValidSeparator [(jsTrim p).getLast?.getD ' '] = false)
    (hdot : (jsSplit '.' (jsTrim p)).length = 1) :
    processPart s p = { s with skipTopLevel := false } := by
  unfold processPart processCleanPart
  rw [if_neg (by simpa using hne), if_neg hauto, if_neg (by simp [hfl]),
    if_neg (by simp [hmax]), if_neg (by simp [hcont])]
  unfold fmtApply
  simp only [hsep, Bool.false_eq_true, if_false, hdot]
  have h1 : ¬ (decide ((1 : Nat) > 1) &&
      ((jsSplit '.' (jsTrim p)).headD [] == ['_'])) = true := by
    simp
  rw [if_neg h1]
  norm_num

/-- C2 amended, witness: the unrecognized part `junk` applied to a record
with `skipTopLevel := true` resets that flag and touches nothing else. -/
theorem claim2_amended_witness :
    processPart { DEFAULT_SETTINGS with skipTopLevel := true } (("junk").toList) =
      { DEFAULT_SETTINGS with skipTopLevel := false } :=
  claim2_amended { DEFAULT_SETTINGS with skipTopLevel := true } (("junk").toList)
    (by decide) (by decide) (by decide) (by decide) (by decide) (by decide) (by decide)

/-- C3 counterexample: `max.3` has no space after the key word, yet the
decoder treats it as a max-level token (bare `startsWith` match) and sets
`maxLevel := 3` instead of falling through to the formatting-descriptor
case. -/
theorem claim3_counterexample :
    strStartsWith (("max.3").toList) MAX_LEVEL_PART_KEY = true ∧
    parseCompactValue (("max.3").toList) = { DEFAULT_SETTINGS with maxLevel := 3 } := by
  refine ⟨rfl, ?_⟩
  decide

/-- C3 amended: classification of a max-level token requires only that the
trimmed part begin with the bare key word `max` (no following space is
checked); the value is parsed from the text after position
`length "max" + 1`, i.e. the character right after the key word is skipped
whatever it is. -/
theorem claim3_amended (s : NumberHeadingsPluginSettings) (cp : Str)
    (hne : cp ≠ [])
    (hauto : cp ≠ AUTO_PART_KEY)
    (hfl : strStartsWith cp FIRST_LEVEL_PART_KEY = false)
    (hmax : strStartsWith cp MAX_LEVEL_PART_KEY = true) :
    processCleanPart s cp =
      (match jsParseInt (cp.drop (MAX_LEVEL_PART_KEY.length + 1)) with
       | some n => if isValidFirstOrMaxLevel n then { s with maxLevel := n } else s
       | none => s) := by
  unfold processCleanPart
  rw [if_neg (by simpa using hne), if_neg hauto, if_neg (by simp [hfl]), if_pos hmax]

/-- C3 amended, witness: `maxx4` begins with the bare word `max`; the `x` at
the key-word boundary is skipped and `4` is parsed as the level. -/
theorem claim3_amended_witness :
    processCleanPart DEFAULT_SETTINGS (("maxx4").toList) =
      (match jsParseInt (((("maxx4").toList)).drop (MAX_LEVEL_PART_KEY.length + 1)) with
       | some n => if isValidFirstOrMaxLevel n then { DEFAULT_SETTINGS with maxLevel := n }
                   else DEFAULT_SETTINGS
       | none => DEFAULT_SETTINGS) :=
  claim3_amended DEFAULT_SETTINGS (("maxx4").toList) (by decide) (by decide)
    (by decide) (by decide)

/-- C6: the worked example of the spec — the compact string decodes to
exactly the stated record (all the involved values pass the validity
predicates), and re-encoding that record reproduces the string verbatim. -/
theorem claim6_example_roundtrip :
    isValidFirstOrMaxLevel 2 = true ∧ isValidFirstOrMaxLevel 4 = true ∧
    isValidContents (("Table of Contents").toList) = true ∧
    isValidLevelStyle (("1").toList) = true ∧ isValidLevelStyle (("A").toList) = true ∧
    isValidSeparator ['-'] = true ∧
    parseCompactValue (("auto, first-level 2, max 4, contents Table of Contents, _.1.A-").toList) =
      { auto := true, firstLevel := 2, maxLevel := 4,
        contents := ("Table of Contents").toList, skipTopLevel := true,
        styleLevel1 := ("1").toList, styleLevelOther := ("A").toList,
        separator := ['-'] } ∧
    settingsToCompactFrontMatterValue
      { auto := true, firstLevel := 2, maxLevel := 4,
        contents := ("Table of Contents").toList, skipTopLevel := true,
        styleLevel1 := ("1").toList, styleLevelOther := ("A").toList,
        separator := ['-'] } =
      ("auto, first-level 2, max 4, contents Table of Contents, _.1.A-").toList := by
  refine ⟨rfl, rfl, rfl, rfl, rfl, rfl, ?_, rfl⟩
  decide

/-- Shared helper: when the metadata claims the key but the line scan fails,
`saveSettingsToFrontMatter` returns the thrown error. -/
theorem save_error_of_find_none (fm : FrontMatterCache) (doc : Doc)
    (settings : NumberHeadingsPluginSettings)
    (hkey : (fm.entries.lookup numberHeadingsKey).isSome = true)
    (hfind : findLineWhichStartsWith doc ((numberHeadingsKey).toList) fm.startLine = none) :
    saveSettingsToFrontMatter (some fm) doc settings = .error keyNotFoundMsg := by
  have hfind' : findLineWhichStartsWith doc (numberHeadingsKey).data fm.startLine = none := hfind
  unfold saveSettingsToFrontMatter
  simp [hkey, hfind, hfind']

/-- C7: when the structured metadata defines the `number headings` key but
the line scan starting at the block's first line finds no line beginning with
that text, the save routine throws the fatal-inconsistency error; the model
returns the error without producing any edited document. -/
theorem claim7_fatal_inconsistency (fm : FrontMatterCache) (doc : Doc)
    (settings : NumberHeadingsPluginSettings)
    (hkey : (fm.entries.lookup numberHeadingsKey).isSome = true)
    (hfind : findLineWhichStartsWith doc ((numberHeadingsKey).toList) fm.startLine = none) :
    saveSettingsToFrontMatter (some fm) doc settings = .error keyNotFoundMsg :=
  save_error_of_find_none fm doc settings hkey hfind

/-- C7, witness: a metadata cache claiming the key over an empty document. -/
theorem claim7_fatal_inconsistency_witness :
    saveSettingsToFrontMatter
      (some (FrontMatterCache.mk [(numberHeadingsKey, .bool true)] 0)) [] DEFAULT_SETTINGS =
      .error keyNotFoundMsg :=
  claim7_fatal_inconsistency _ _ _ (by decide) (by decide)

/-- C9: on the legacy path (compact decoder signalled absence), each of the
five legacy settings is read from the preferred key with the deprecated alias
as fallback, is kept only when it passes its validity predicate and otherwise
comes from the caller-supplied alternative record, while `firstLevel`,
`contents` and `separator` are taken from the global defaults for every
alternative record. -/
theorem claim9_legacy_merge (fm : FrontMatterCache) (alt : NumberHeadingsPluginSettings)
    (habs : parseCompactFrontMatterSettings fm = none) :
    getFrontMatterSettingsOrAlternative (some fm) alt =
      { DEFAULT_SETTINGS with
          skipTopLevel :=
            (if isValidFlag (jsCoalesce (parseFrontMatterEntry fm skipKeyNew)
                  (parseFrontMatterEntry fm skipKeyOld)) then
               jsAsBool (jsCoalesce (parseFrontMatterEntry fm skipKeyNew)
                 (parseFrontMatterEntry fm skipKeyOld))
             else alt.skipTopLevel)
          maxLevel :=
            (if isValidFirstOrMaxLevelEntry (jsCoalesce (parseFrontMatterEntry fm maxKeyNew)
                  (parseFrontMatterEntry fm maxKeyOld)) then
               jsAsInt (jsCoalesce (parseFrontMatterEntry fm maxKeyNew)
                 (parseFrontMatterEntry fm maxKeyOld))
             else alt.maxLevel)
          styleLevel1 :=
            (if isValidLevelStyle (jsToString (jsCoalesce (parseFrontMatterEntry fm style1KeyNew)
                  (parseFrontMatterEntry fm style1KeyOld))) then
               jsToString (jsCoalesce (parseFrontMatterEntry fm style1KeyNew)
                 (parseFrontMatterEntry fm style1KeyOld))
             else alt.styleLevel1)
          styleLevelOther :=
            (if isValidLevelStyle (jsToString (jsCoalesce (parseFrontMatterEntry fm styleOtherKeyNew)
                  (parseFrontMatterEntry fm styleOtherKeyOld))) then
               jsToString (jsCoalesce (parseFrontMatterEntry fm styleOtherKeyNew)
                 (parseFrontMatterEntry fm styleOtherKeyOld))
             else alt.styleLevelOther)
          auto :=
            (if isValidFlag (jsCoalesce (parseFrontMatterEntry fm autoKeyNew)
                  (parseFrontMatterEntry fm autoKeyOld)) then
               jsAsBool (jsCoalesce (parseFrontMatterEntry fm autoKeyNew)
                 (parseFrontMatterEntry fm autoKeyOld))
             else alt.auto) } ∧
    (getFrontMatterSettingsOrAlternative (some fm) alt).firstLevel =
      DEFAULT_SETTINGS.firstLevel ∧
    (getFrontMatterSettingsOrAlternative (some fm) alt).contents =
      DEFAULT_SETTINGS.contents ∧
    (getFrontMatterSettingsOrAlternative (some fm) alt).separator =
      DEFAULT_SETTINGS.separator := by
  simp [getFrontMatterSettingsOrAlternative, habs]

/-- C9, witness: on a metadata block with a preferred max-level key and a
deprecated auto key, the fields `firstLevel`, `contents` and `separator` of
the legacy result come from the global defaults even though the alternative
record differs everywhere. -/
theorem claim9_legacy_merge_witness :
    (getFrontMatterSettingsOrAlternative
      (some (FrontMatterCache.mk [(maxKeyNew, .num 3), (autoKeyOld, .bool true)] 7))
      { DEFAULT_SETTINGS with skipTopLevel := true, firstLevel := 4, contents := ['X'], separator := ['-'] }).firstLevel =
      DEFAULT_SETTINGS.firstLevel ∧
    (getFrontMatterSettingsOrAlternative
      (some (FrontMatterCache.mk [(maxKeyNew, .num 3), (autoKeyOld, .bool true)] 7))
      { DEFAULT_SETTINGS with skipTopLevel := true, firstLevel := 4, contents := ['X'], separator := ['-'] }).contents =
      DEFAULT_SETTINGS.contents ∧
    (getFrontMatterSettingsOrAlternative
      (some (FrontMatterCache.mk [(maxKeyNew, .num 3), (autoKeyOld, .bool true)] 7))
      { DEFAULT_SETTINGS with skipTopLevel := true, firstLevel := 4, contents := ['X'], separator := ['-'] }).separator =
      DEFAULT_SETTINGS.separator :=
  (claim9_legacy_merge
    (FrontMatterCache.mk [(maxKeyNew, .num 3), (autoKeyOld, .bool true)] 7)
    { DEFAULT_SETTINGS with skipTopLevel := true, firstLevel := 4, contents := ['X'], separator := ['-'] }
    (by decide)).2

/-- C10: the line scan runs `i` from `afterLine` up to but excluding the last
line index, so any hit satisfies `afterLine ≤ i < lastLine`; consequently,
when the metadata claims the key but the only matching line is the document's
last line (no line before the last matches), the save routine raises the
fatal-inconsistency error even though the key line exists. -/
theorem claim10_scan_misses_last_line :
    (∀ (doc : Doc) (search : Str) (afterLine k : Nat),
        findLineWhichStartsWith doc search afterLine = some k →
        afterLine ≤ k ∧ k < lastLine doc) ∧
    (∀ (fm : FrontMatterCache) (doc : Doc) (settings : NumberHeadingsPluginSettings),
        (fm.entries.lookup numberHeadingsKey).isSome = true →
        (∀ i, i < lastLine doc →
          strStartsWith (getLine doc i) ((numberHeadingsKey).toList) = false) →
        saveSettingsToFrontMatter (some fm) doc settings = .error keyNotFoundMsg) := by
  constructor
  · intro doc search afterLine k h
    have hmem := List.mem_of_find?_eq_some h
    rw [List.mem_range'_1] at hmem
    omega
  · intro fm doc settings hkey hnomatch
    have hfind : findLineWhichStartsWith doc ((numberHeadingsKey).toList) fm.startLine = none := by
      unfold findLineWhichStartsWith
      rw [List.find?_eq_none]
      intro i hi
      rw [List.mem_range'_1] at hi
      have h2 : i < lastLine doc := by omega
      simp only [Bool.not_eq_true]
      exact hnomatch i h2
    exact save_error_of_find_none fm doc settings hkey hfind

/-- C10, witness: a document whose only `number headings` line is its last
line; the matching line exists yet the save errors. -/
theorem claim10_scan_misses_last_line_witness :
    ((0 : Nat) ≤ 1 ∧ (1 : Nat) < lastLine
      [("---").toList, ("number headings: x").toList, ("---").toList]) ∧
    strStartsWith
      (getLine [("---").toList, ("a: b").toList, ("---").toList,
        ("number headings: auto").toList] 3) ((numberHeadingsKey).toList) = true ∧
    saveSettingsToFrontMatter
      (some (FrontMatterCache.mk [(numberHeadingsKey, .str (("auto").toList))] 0))
      [("---").toList, ("a: b").toList, ("---").toList, ("number headings: auto").toList]
      DEFAULT_SETTINGS = .error keyNotFoundMsg := by
  refine ⟨claim10_scan_misses_last_line.1
      [("---").toList, ("number headings: x").toList, ("---").toList]
      ((numberHeadingsKey).toList) 0 1 (by decide), by decide, ?_⟩
  refine claim10_scan_misses_last_line.2 _ _ _ (by decide) ?_
  decide

/-! ### Helper lemmas about the string primitives -/

theorem jsSplit_append_cons (c : Char) (a r : Str) (ha : c ∉ a) :
    jsSplit c (a ++ c :: r) = a :: jsSplit c r := by
  induction a with
  | nil => simp [jsSplit]
  | cons x xs ih =>
    have hx : x ≠ c := fun h => ha (h ▸ List.mem_cons_self x xs)
    have hxs : c ∉ xs := fun h => ha (List.mem_cons_of_mem x h)
    simp only [List.cons_append, jsSplit, List.append_eq]
    rw [if_neg hx, ih hxs]

theorem jsSplit_no_sep (c : Char) (s : Str) (h : c ∉ s) : jsSplit c s = [s] := by
  induction s with
  | nil => rfl
  | cons x xs ih =>
    have hx : x ≠ c := fun hh => h (hh ▸ List.mem_cons_self x xs)
    have hxs : c ∉ xs := fun hh => h (List.mem_cons_of_mem x hh)
    simp only [jsSplit]
    rw [if_neg hx, ih hxs]

theorem linesOfText_single (l : Str) (h : '\n' ∉ l) : linesOfText (l ++ ['\n']) = [l] := by
  unfold linesOfText
  rw [show l ++ ['\n'] = l ++ '\n' :: [] from rfl, jsSplit_append_cons _ _ _ h]
  rfl

theorem strStartsWith_append (p r : Str) : strStartsWith (p ++ r) p = true := by
  induction p with
  | nil => cases r <;> rfl
  | cons x xs ih => simp [strStartsWith, ih]

theorem find?_congr_on {α : Type} (l : List α) (p q : α → Bool)
    (h : ∀ x ∈ l, p x = q x) : l.find? p = l.find? q := by
  induction l with
  | nil => rfl
  | cons x xs ih =>
    have hx := h x (List.mem_cons_self x xs)
    have hxs : ∀ y ∈ xs, p y = q y := fun y hy => h y (List.mem_cons_of_mem x hy)
    simp only [List.find?_cons, hx, ih hxs]

theorem getLine_set_ne (doc : Doc) (k i : Nat) (v : Str) (h : k ≠ i) :
    getLine (doc.set k v) i = getLine doc i := by
  unfold getLine
  rw [List.getD_eq_getElem?_getD, List.getD_eq_getElem?_getD, List.getElem?_set_ne h]

theorem getLine_set_self (doc : Doc) (k : Nat) (v : Str) (h : k < doc.length) :
    getLine (doc.set k v) k = v := by
  unfold getLine
  rw [List.getD_eq_getElem?_getD, List.getElem?_set_eq_of_lt v h]
  rfl

/-- Shared helper: when the metadata claims the key and the scan finds line
`keyLine`, the save replaces the span from that line's start to the next
line's start with the new key line. -/
theorem save_ok_of_find_some (fm : FrontMatterCache) (doc : Doc)
    (settings : NumberHeadingsPluginSettings) (keyLine : Nat)
    (hkey : (fm.entries.lookup numberHeadingsKey).isSome = true)
    (hfind : findLineWhichStartsWith doc ((numberHeadingsKey).toList) fm.startLine =
      some keyLine) :
    saveSettingsToFrontMatter (some fm) doc settings =
      .ok (replaceLines doc
        (("number headings: ").toList ++ settingsToCompactFrontMatterValue settings ++ ['\n'])
        keyLine (keyLine + 1)) := by
  have hfindD : findLineWhichStartsWith doc (numberHeadingsKey).data fm.startLine =
      some keyLine := hfind
  unfold saveSettingsToFrontMatter
  simp [hkey, hfind, hfindD]

/-- C8: saving into a document that already holds the key replaces exactly
the one line the scan found (the span from its start to the next line's
start becomes the single new `number headings: value` line, i.e. a
`List.set` at that index), and saving the same settings a second time leaves
the document identical: the scan re-finds the same line and the same
replacement is a no-op. The front-matter value is newline-free, as every
encoded in-domain settings record is (spec section 3 invariant). -/
theorem claim8_idempotent_resave (fm : FrontMatterCache) (doc : Doc)
    (settings : NumberHeadingsPluginSettings) (keyLine : Nat)
    (hkey : (fm.entries.lookup numberHeadingsKey).isSome = true)
    (hfind : findLineWhichStartsWith doc ((numberHeadingsKey).toList) fm.startLine = some keyLine)
    (hnl : '\n' ∉ settingsToCompactFrontMatterValue settings) :
    saveSettingsToFrontMatter (some fm) doc settings =
      .ok (doc.set keyLine
        (("number headings: ").toList ++ settingsToCompactFrontMatterValue settings)) ∧
    saveSettingsToFrontMatter (some fm)
      (doc.set keyLine
        (("number headings: ").toList ++ settingsToCompactFrontMatterValue settings))
      settings =
      .ok (doc.set keyLine
        (("number headings: ").toList ++ settingsToCompactFrontMatterValue settings)) := by
  have hmem := List.mem_of_find?_eq_some hfind
  rw [List.mem_range'_1] at hmem
  have hkl : keyLine < lastLine doc := by omega
  have hklen : keyLine < doc.length := by
    unfold lastLine at hkl
    omega
  have hnl2 : '\n' ∉ ("number headings: ").toList ++ settingsToCompactFrontMatterValue settings := by
    intro hmem2
    rcases List.mem_append.mp hmem2 with h | h
    · revert h
      decide
    · exact hnl h
  have hrep : ∀ d : Doc, keyLine < d.length →
      replaceLines d
        (("number headings: ").toList ++ settingsToCompactFrontMatterValue settings ++ ['\n'])
        keyLine (keyLine + 1) =
      d.set keyLine
        (("number headings: ").toList ++ settingsToCompactFrontMatterValue settings) := by
    intro d hd
    unfold replaceLines
    rw [show ("number headings: ").toList ++ settingsToCompactFrontMatterValue settings ++ ['\n'] =
        (("number headings: ").toList ++ settingsToCompactFrontMatterValue settings) ++ ['\n']
      from rfl]
    rw [linesOfText_single _ hnl2, List.set_eq_take_cons_drop _ hd]
    simp
  have hstart : strStartsWith
      (("number headings: ").toList ++ settingsToCompactFrontMatterValue settings)
      ((numberHeadingsKey).toList) = true := by
    rw [show ("number headings: ").toList = (numberHeadingsKey).toList ++ (": ").toList
      from rfl, List.append_assoc]
    exact strStartsWith_append _ _
  have hp := List.find?_some hfind
  simp only [] at hp
  have hfind2 : findLineWhichStartsWith
      (doc.set keyLine
        (("number headings: ").toList ++ settingsToCompactFrontMatterValue settings))
      ((numberHeadingsKey).toList) fm.startLine = some keyLine := by
    unfold findLineWhichStartsWith
    have hlast : lastLine (doc.set keyLine
        (("number headings: ").toList ++ settingsToCompactFrontMatterValue settings)) =
        lastLine doc := by
      unfold lastLine
      rw [List.length_set]
    rw [hlast]
    rw [find?_congr_on _ _
      (fun i => strStartsWith (getLine doc i) ((numberHeadingsKey).toList)) ?_]
    · unfold findLineWhichStartsWith at hfind
      exact hfind
    · intro i hi
      by_cases hik : keyLine = i
      · subst hik
        rw [getLine_set_self doc keyLine _ hklen, hstart]
        exact hp.symm
      · rw [getLine_set_ne doc keyLine i _ hik]
  constructor
  · rw [save_ok_of_find_some fm doc settings keyLine hkey hfind, hrep doc hklen]
  · have hklen2 : keyLine < (doc.set keyLine
        (("number headings: ").toList ++ settingsToCompactFrontMatterValue settings)).length := by
      rw [List.length_set]
      exact hklen
    rw [save_ok_of_find_some fm _ settings keyLine hkey hfind2, hrep _ hklen2, List.set_set]

/-- C8, witness: a concrete document whose second line holds the key; both
saves yield the same document with exactly that line replaced. -/
theorem claim8_idempotent_resave_witness :
    saveSettingsToFrontMatter
      (some (FrontMatterCache.mk [(numberHeadingsKey, .str (("old").toList))] 0))
      [("---").toList, ("number headings: old").toList, ("---").toList, ("body").toList]
      DEFAULT_SETTINGS =
      .ok ([("---").toList, ("number headings: old").toList, ("---").toList,
        ("body").toList].set 1
        (("number headings: ").toList ++ settingsToCompactFrontMatterValue DEFAULT_SETTINGS)) ∧
    saveSettingsToFrontMatter
      (some (FrontMatterCache.mk [(numberHeadingsKey, .str (("old").toList))] 0))
      ([("---").toList, ("number headings: old").toList, ("---").toList,
        ("body").toList].set 1
        (("number headings: ").toList ++ settingsToCompactFrontMatterValue DEFAULT_SETTINGS))
      DEFAULT_SETTINGS =
      .ok ([("---").toList, ("number headings: old").toList, ("---").toList,
        ("body").toList].set 1
        (("number headings: ").toList ++ settingsToCompactFrontMatterValue DEFAULT_SETTINGS)) :=
  claim8_idempotent_resave
    (FrontMatterCache.mk [(numberHeadingsKey, .str (("old").toList))] 0)
    [("---").toList, ("number headings: old").toList, ("---").toList, ("body").toList]
    DEFAULT_SETTINGS 1 (by decide) (by decide) (by decide)

/-! ### Frame lemmas: which fields a part can write -/

theorem fmtApply_fields (s : NumberHeadingsPluginSettings) (cp : Str) :
    (fmtApply s cp).auto = s.auto ∧
    (fmtApply s cp).firstLevel = s.firstLevel ∧
    (fmtApply s cp).maxLevel = s.maxLevel ∧
    (fmtApply s cp).contents = s.contents ∧
    (isValidSeparator [cp.getLast?.getD ' '] = false →
      (fmtApply s cp).separator = s.separator) ∧
    ((decide ((fmtDescriptors cp).length - fmtIndex cp ≥ 2) &&
        isValidLevelStyle ((fmtDescriptors cp).getD (fmtIndex cp) [])) = false →
      (fmtApply s cp).styleLevel1 = s.styleLevel1) ∧
    ((decide ((fmtDescriptors cp).length - fmtIndex cp ≥ 2) &&
        isValidLevelStyle ((fmtDescriptors cp).getD (fmtIndex cp + 1) [])) = false →
      (fmtApply s cp).styleLevelOther = s.styleLevelOther) := by
  have hd : jsSplit '.'
      (if isValidSeparator [cp.getLast?.getD ' '] then cp.dropLast else cp) =
      fmtDescriptors cp := rfl
  have hi : (if (decide ((fmtDescriptors cp).length > 1) &&
      ((fmtDescriptors cp).headD [] == ['_'])) = true then (1 : Nat) else 0) =
      fmtIndex cp := rfl
  simp only [fmtApply, hd, hi]
  split_ifs with hsep hskip hlen hs1 hs2 <;>
    refine ⟨rfl, rfl, rfl, rfl, ?_, ?_, ?_⟩ <;> intro hh <;> simp_all

theorem processCleanPart_frame (s : NumberHeadingsPluginSettings) (cp : Str) :
    (touchesAuto cp = false → (processCleanPart s cp).auto = s.auto) ∧
    (touchesFirstLevel cp = false → (processCleanPart s cp).firstLevel = s.firstLevel) ∧
    (touchesMaxLevel cp = false → (processCleanPart s cp).maxLevel = s.maxLevel) ∧
    (touchesContents cp = false → (processCleanPart s cp).contents = s.contents) ∧
    (touchesSkipTopLevel cp = false → (processCleanPart s cp).skipTopLevel = s.skipTopLevel) ∧
    (touchesSeparator cp = false → (processCleanPart s cp).separator = s.separator) ∧
    (touchesStyleLevel1 cp = false → (processCleanPart s cp).styleLevel1 = s.styleLevel1) ∧
    (touchesStyleLevelOther cp = false →
      (processCleanPart s cp).styleLevelOther = s.styleLevelOther) := by
  by_cases h0 : cp.length = 0
  · have he : processCleanPart s cp = s := by
      unfold processCleanPart
      rw [if_pos h0]
    simp [he]
  by_cases h1 : cp = AUTO_PART_KEY
  · have he : processCleanPart s cp = { s with auto := true } := by
      unfold processCleanPart
      rw [if_neg h0, if_pos h1]
    refine ⟨?_, ?_, ?_, ?_, ?_, ?_, ?_, ?_⟩ <;> intro hh <;>
      simp_all [he, touchesAuto]
  by_cases h2 : strStartsWith cp FIRST_LEVEL_PART_KEY = true
  · have he : processCleanPart s cp =
        (match jsParseInt (cp.drop (FIRST_LEVEL_PART_KEY.length + 1)) with
         | some n =>
            if isValidFirstOrMaxLevel n then { s with firstLevel := n } else s
         | none => s) := by
      unfold processCleanPart
      rw [if_neg h0, if_neg h1, if_pos h2]
    rcases hpi : jsParseInt (cp.drop (FIRST_LEVEL_PART_KEY.length + 1)) with _ | n
    · rw [hpi] at he
      have he2 : processCleanPart s cp = s := by rw [he]
      simp [he2]
    · rw [hpi] at he
      by_cases hv : isValidFirstOrMaxLevel n = true
      · have he2 : processCleanPart s cp = { s with firstLevel := n } := by
          rw [he]
          simp [hv]
        refine ⟨?_, ?_, ?_, ?_, ?_, ?_, ?_, ?_⟩ <;> intro hh <;>
          simp_all [he2, touchesFirstLevel, parsesLevelAfter, hpi, List.length_eq_zero]
      · have he2 : processCleanPart s cp = s := by
          rw [he]
          simp [hv]
        simp [he2]
  by_cases h3 : strStartsWith cp MAX_LEVEL_PART_KEY = true
  · have he : processCleanPart s cp =
        (match jsParseInt (cp.drop (MAX_LEVEL_PART_KEY.length + 1)) with
         | some n =>
            if isValidFirstOrMaxLevel n then { s with maxLevel := n } else s
         | none => s) := by
      unfold processCleanPart
      rw [if_neg h0, if_neg h1, if_neg h2, if_pos h3]
    rcases hpi : jsParseInt (cp.drop (MAX_LEVEL_PART_KEY.length + 1)) with _ | n
    · rw [hpi] at he
      have he2 : processCleanPart s cp = s := by rw [he]
      simp [he2]
    · rw [hpi] at he
      by_cases hv : isValidFirstOrMaxLevel n = true
      · have he2 : processCleanPart s cp = { s with maxLevel := n } := by
          rw [he]
          simp [hv]
        refine ⟨?_, ?_, ?_, ?_, ?_, ?_, ?_, ?_⟩ <;> intro hh <;>
          simp_all [he2, touchesMaxLevel, parsesLevelAfter, hpi, List.length_eq_zero]
      · have he2 : processCleanPart s cp = s := by
          rw [he]
          simp [hv]
        simp [he2]
  by_cases h4 : strStartsWith cp CONTENTS_PART_KEY = true
  · by_cases hlen2 : cp.length ≤ CONTENTS_PART_KEY.length + 1
    · have he : processCleanPart s cp = s := by
        unfold processCleanPart
        rw [if_neg h0, if_neg h1, if_neg h2, if_neg h3, if_pos h4, if_pos hlen2]
      simp [he]
    · by_cases hvc : isValidContents (cp.drop (CONTENTS_PART_KEY.length + 1)) = true
      · have he : processCleanPart s cp =
            { s with contents := cp.drop (CONTENTS_PART_KEY.length + 1) } := by
          unfold processCleanPart
          rw [if_neg h0, if_neg h1, if_neg h2, if_neg h3, if_pos h4, if_neg hlen2, if_pos hvc]
        refine ⟨?_, ?_, ?_, ?_, ?_, ?_, ?_, ?_⟩ <;> intro hh <;>
          simp_all [he, touchesContents, List.length_eq_zero]
      · have he : processCleanPart s cp = s := by
          unfold processCleanPart
          rw [if_neg h0, if_neg h1, if_neg h2, if_neg h3, if_pos h4, if_neg hlen2, if_neg hvc]
        simp [he]
  · -- formatting fallback
    have he : processCleanPart s cp = fmtApply s cp := by
      unfold processCleanPart
      rw [if_neg h0, if_neg h1, if_neg h2, if_neg h3, if_neg h4]
    have hne : cp ≠ [] := by
      intro h
      exact h0 (by simp [h])
    rw [Bool.not_eq_true] at h2 h3 h4
    have hreach : reachesFormatting cp = true := by
      simp [reachesFormatting, hne, h1, h2, h3, h4]
    obtain ⟨f1, f2, f3, f4, f5, f6, f7⟩ := fmtApply_fields s cp
    refine ⟨?_, ?_, ?_, ?_, ?_, ?_, ?_, ?_⟩ <;> intro hh
    · rw [he]; exact f1
    · rw [he]; exact f2
    · rw [he]; exact f3
    · rw [he]; exact f4
    · simp [touchesSkipTopLevel, hreach] at hh
    · simp only [touchesSeparator, hreach, Bool.true_and] at hh
      rw [he]; exact f5 hh
    · simp only [touchesStyleLevel1, hreach, Bool.true_and, Bool.and_assoc] at hh
      rw [he]
      exact f6 hh
    · simp only [touchesStyleLevelOther, hreach, Bool.true_and, Bool.and_assoc] at hh
      rw [he]
      exact f7 hh

/-- Folding the loop body over parts none of which writes a field (as
measured by the field accessor `f` and untouched-predicate `touch`) leaves
that field at its starting value. -/
theorem foldl_frame_generic {α : Type} (f : NumberHeadingsPluginSettings → α)
    (touch : Str → Bool)
    (hstep : ∀ s cp, touch cp = false → f (processCleanPart s cp) = f s)
    (parts : List Str) (s : NumberHeadingsPluginSettings)
    (h : ∀ p ∈ parts, touch (jsTrim p) = false) :
    f (parts.foldl processPart s) = f s := by
  induction parts generalizing s with
  | nil => rfl
  | cons p ps ih =>
    rw [List.foldl_cons]
    rw [ih (processPart s p) (fun q hq => h q (List.mem_cons_of_mem p hq))]
    exact hstep s (jsTrim p) (h p (List.mem_cons_self p ps))

/-- C5: for any compact string, each settings field that no comma-separated
part successfully writes (per the corresponding `touches` predicate read off
the decoder's branches) equals that field of the global default record — the
caller-supplied alternative never enters the compact path; in particular, when
the compact decoder succeeds, the overall result is identical for any two
alternative records. -/
theorem claim5_default_preservation (s : Str) :
    ((∀ p ∈ jsSplit ',' s, touchesAuto (jsTrim p) = false) →
      (parseCompactValue s).auto = DEFAULT_SETTINGS.auto) ∧
    ((∀ p ∈ jsSplit ',' s, touchesFirstLevel (jsTrim p) = false) →
      (parseCompactValue s).firstLevel = DEFAULT_SETTINGS.firstLevel) ∧
    ((∀ p ∈ jsSplit ',' s, touchesMaxLevel (jsTrim p) = false) →
      (parseCompactValue s).maxLevel = DEFAULT_SETTINGS.maxLevel) ∧
    ((∀ p ∈ jsSplit ',' s, touchesContents (jsTrim p) = false) →
      (parseCompactValue s).contents = DEFAULT_SETTINGS.contents) ∧
    ((∀ p ∈ jsSplit ',' s, touchesSkipTopLevel (jsTrim p) = false) →
      (parseCompactValue s).skipTopLevel = DEFAULT_SETTINGS.skipTopLevel) ∧
    ((∀ p ∈ jsSplit ',' s, touchesSeparator (jsTrim p) = false) →
      (parseCompactValue s).separator = DEFAULT_SETTINGS.separator) ∧
    ((∀ p ∈ jsSplit ',' s, touchesStyleLevel1 (jsTrim p) = false) →
      (parseCompactValue s).styleLevel1 = DEFAULT_SETTINGS.styleLevel1) ∧
    ((∀ p ∈ jsSplit ',' s, touchesStyleLevelOther (jsTrim p) = false) →
      (parseCompactValue s).styleLevelOther = DEFAULT_SETTINGS.styleLevelOther) ∧
    (∀ (fm : FrontMatterCache) (alt1 alt2 : NumberHeadingsPluginSettings),
      (parseCompactFrontMatterSettings fm).isSome = true →
      getFrontMatterSettingsOrAlternative (some fm) alt1 =
        getFrontMatterSettingsOrAlternative (some fm) alt2) := by
  refine ⟨fun h => ?_, fun h => ?_, fun h => ?_, fun h => ?_, fun h => ?_, fun h => ?_,
    fun h => ?_, fun h => ?_, ?_⟩
  · exact foldl_frame_generic (fun r => r.auto) touchesAuto
      (fun s' cp hc => (processCleanPart_frame s' cp).1 hc) _ DEFAULT_SETTINGS h
  · exact foldl_frame_generic (fun r => r.firstLevel) touchesFirstLevel
      (fun s' cp hc => (processCleanPart_frame s' cp).2.1 hc) _ DEFAULT_SETTINGS h
  · exact foldl_frame_generic (fun r => r.maxLevel) touchesMaxLevel
      (fun s' cp hc => (processCleanPart_frame s' cp).2.2.1 hc) _ DEFAULT_SETTINGS h
  · exact foldl_frame_generic (fun r => r.contents) touchesContents
      (fun s' cp hc => (processCleanPart_frame s' cp).2.2.2.1 hc) _ DEFAULT_SETTINGS h
  · exact foldl_frame_generic (fun r => r.skipTopLevel) touchesSkipTopLevel
      (fun s' cp hc => (processCleanPart_frame s' cp).2.2.2.2.1 hc) _ DEFAULT_SETTINGS h
  · exact foldl_frame_generic (fun r => r.separator) touchesSeparator
      (fun s' cp hc => (processCleanPart_frame s' cp).2.2.2.2.2.1 hc) _ DEFAULT_SETTINGS h
  · exact foldl_frame_generic (fun r => r.styleLevel1) touchesStyleLevel1
      (fun s' cp hc => (processCleanPart_frame s' cp).2.2.2.2.2.2.1 hc) _ DEFAULT_SETTINGS h
  · exact foldl_frame_generic (fun r => r.styleLevelOther) touchesStyleLevelOther
      (fun s' cp hc => (processCleanPart_frame s' cp).2.2.2.2.2.2.2 hc) _ DEFAULT_SETTINGS h
  · intro fm alt1 alt2 hs
    rcases hq : parseCompactFrontMatterSettings fm with _ | d
    · rw [hq] at hs
      simp at hs
    · simp [getFrontMatterSettingsOrAlternative, hq]

/-- C5, witness: `max 3` mentions only the max token, so every other field of
the decoded record equals the default, and the compact path ignores the
alternative record. -/
theorem claim5_default_preservation_witness :
    (parseCompactValue (("max 3").toList)).auto = DEFAULT_SETTINGS.auto ∧
    (parseCompactValue (("max 3").toList)).firstLevel = DEFAULT_SETTINGS.firstLevel ∧
    (parseCompactValue (("max 3").toList)).contents = DEFAULT_SETTINGS.contents ∧
    (parseCompactValue (("max 3").toList)).skipTopLevel = DEFAULT_SETTINGS.skipTopLevel ∧
    (parseCompactValue (("max 3").toList)).separator = DEFAULT_SETTINGS.separator ∧
    (parseCompactValue (("max 3").toList)).styleLevel1 = DEFAULT_SETTINGS.styleLevel1 ∧
    (parseCompactValue (("max 3").toList)).styleLevelOther =
      DEFAULT_SETTINGS.styleLevelOther ∧
    getFrontMatterSettingsOrAlternative
      (some (FrontMatterCache.mk [(numberHeadingsKey, .str (("auto").toList))] 0))
      DEFAULT_SETTINGS =
    getFrontMatterSettingsOrAlternative
      (some (FrontMatterCache.mk [(numberHeadingsKey, .str (("auto").toList))] 0))
      { DEFAULT_SETTINGS with maxLevel := 2 } :=
  ⟨(claim5_default_preservation (("max 3").toList)).1 (by decide),
   (claim5_default_preservation (("max 3").toList)).2.1 (by decide),
   (claim5_default_preservation (("max 3").toList)).2.2.2.1 (by decide),
   (claim5_default_preservation (("max 3").toList)).2.2.2.2.1 (by decide),
   (claim5_default_preservation (("max 3").toList)).2.2.2.2.2.1 (by decide),
   (claim5_default_preservation (("max 3").toList)).2.2.2.2.2.2.1 (by decide),
   (claim5_default_preservation (("max 3").toList)).2.2.2.2.2.2.2.1 (by decide),
   (claim5_default_preservation (("max 3").toList)).2.2.2.2.2.2.2.2
     (FrontMatterCache.mk [(numberHeadingsKey, .str (("auto").toList))] 0)
     DEFAULT_SETTINGS { DEFAULT_SETTINGS with maxLevel := 2 } (by decide)⟩

/-! ### Image of the decoder: every decoded record is `GoodSettings` -/

theorem dropWhile_head_not (p : Char → Bool) (l : Str) (c : Char) (t : Str)
    (h : l.dropWhile p = c :: t) : p c = false := by
  induction l with
  | nil => simp at h
  | cons x xs ih =>
    rw [List.dropWhile_cons] at h
    by_cases hx : p x = true
    · rw [if_pos hx] at h
      exact ih h
    · rw [if_neg hx] at h
      cases h
      simpa using hx

theorem jsTrim_last_not_ws (s : Str) :
    jsTrim s = [] ∨ isJsWS ((jsTrim s).getLast?.getD 'x') = false := by
  unfold jsTrim
  rcases hq : ((s.dropWhile isJsWS).reverse.dropWhile isJsWS) with _ | ⟨c, t⟩
  · left
    rfl
  · right
    rw [List.getLast?_reverse]
    simpa using dropWhile_head_not isJsWS _ c t hq

theorem mem_jsTrim (a : Char) (s : Str) (h : a ∈ jsTrim s) : a ∈ s := by
  unfold jsTrim at h
  rw [List.mem_reverse] at h
  have h2 := (List.dropWhile_sublist (l := (s.dropWhile isJsWS).reverse) isJsWS).subset h
  rw [List.mem_reverse] at h2
  exact (List.dropWhile_sublist isJsWS).subset h2

theorem jsSplit_ne_nil (c : Char) (s : Str) : jsSplit c s ≠ [] := by
  induction s with
  | nil => simp [jsSplit]
  | cons x xs ih =>
    rw [jsSplit]
    by_cases hx : x = c
    · rw [if_pos hx]
      simp
    · rw [if_neg hx]
      rcases hq : jsSplit c xs with _ | ⟨hd, tl⟩
      · exact absurd hq ih
      · simp

theorem jsSplit_parts_no_sep (c : Char) (s : Str) (p : Str) (hp : p ∈ jsSplit c s) :
    c ∉ p := by
  induction s generalizing p with
  | nil =>
    simp [jsSplit] at hp
    simp [hp]
  | cons x xs ih =>
    rw [jsSplit] at hp
    by_cases hx : x = c
    · rw [if_pos hx] at hp
      rcases List.mem_cons.mp hp with h | h
      · simp [h]
      · exact ih p h
    · rw [if_neg hx] at hp
      rcases hq : jsSplit c xs with _ | ⟨hd, tl⟩
      · exact absurd hq (jsSplit_ne_nil c xs)
      · rw [hq] at hp
        rcases List.mem_cons.mp hp with h | h
        · subst h
          intro hmem
          rcases List.mem_cons.mp hmem with h2 | h2
          · exact hx h2.symm
          · exact ih hd (hq ▸ List.mem_cons_self hd tl) h2
        · exact ih p (hq ▸ List.mem_cons_of_mem hd h)

theorem getLast?_drop_of_ne_nil (n : Nat) (l : Str) (h : l.drop n ≠ []) :
    (l.drop n).getLast? = l.getLast? := by
  induction n generalizing l with
  | zero => rfl
  | succ k ih =>
    cases l with
    | nil => simp at h
    | cons a t =>
      rw [List.drop_succ_cons] at h ⊢
      rw [ih t h]
      cases t with
      | nil => simp [List.drop] at h
      | cons b ts => rw [List.getLast?_cons_cons]

theorem fmtApply_good (s : NumberHeadingsPluginSettings) (cp : Str)
    (hs : GoodSettings s) : GoodSettings (fmtApply s cp) := by
  obtain ⟨g1, g2, g3, g4, g5, g6⟩ := hs
  simp only [fmtApply]
  split_ifs with hsep hskip hlen hs1 hs2 <;>
    first
      | exact ⟨g1, g2, g3, g4, g5, g6⟩
      | (refine ⟨g1, g2, g3, g4, ?_, g6⟩ <;> simp_all [isValidSeparator])
      | (refine ⟨g1, g2, ?_, ?_, ?_, g6⟩ <;> simp_all [isValidSeparator])

theorem processCleanPart_good (s : NumberHeadingsPluginSettings) (cp : Str)
    (hs : GoodSettings s) (hnc : ',' ∉ cp)
    (hlast : cp = [] ∨ isJsWS (cp.getLast?.getD 'x') = false) :
    GoodSettings (processCleanPart s cp) := by
  obtain ⟨g1, g2, g3, g4, g5, g6⟩ := hs
  by_cases h0 : cp.length = 0
  · have he : processCleanPart s cp = s := by
      unfold processCleanPart
      rw [if_pos h0]
    rw [he]
    exact ⟨g1, g2, g3, g4, g5, g6⟩
  by_cases h1 : cp = AUTO_PART_KEY
  · have he : processCleanPart s cp = { s with auto := true } := by
      unfold processCleanPart
      rw [if_neg h0, if_pos h1]
    rw [he]
    exact ⟨g1, g2, g3, g4, g5, g6⟩
  by_cases h2 : strStartsWith cp FIRST_LEVEL_PART_KEY = true
  · have he : processCleanPart s cp =
        (match jsParseInt (cp.drop (FIRST_LEVEL_PART_KEY.length + 1)) with
         | some n =>
            if isValidFirstOrMaxLevel n then { s with firstLevel := n } else s
         | none => s) := by
      unfold processCleanPart
      rw [if_neg h0, if_neg h1, if_pos h2]
    rcases hpi : jsParseInt (cp.drop (FIRST_LEVEL_PART_KEY.length + 1)) with _ | n <;>
      rw [hpi] at he
    · rw [he]
      exact ⟨g1, g2, g3, g4, g5, g6⟩
    · by_cases hv : isValidFirstOrMaxLevel n = true
      · have he2 : processCleanPart s cp = { s with firstLevel := n } := by
          rw [he]
          simp [hv]
        rw [he2]
        exact ⟨hv, g2, g3, g4, g5, g6⟩
      · have he2 : processCleanPart s cp = s := by
          rw [he]
          simp [hv]
        rw [he2]
        exact ⟨g1, g2, g3, g4, g5, g6⟩
  by_cases h3 : strStartsWith cp MAX_LEVEL_PART_KEY = true
  · have he : processCleanPart s cp =
        (match jsParseInt (cp.drop (MAX_LEVEL_PART_KEY.length + 1)) with
         | some n =>
            if isValidFirstOrMaxLevel n then { s with maxLevel := n } else s
         | none => s) := by
      unfold processCleanPart
      rw [if_neg h0, if_neg h1, if_neg h2, if_pos h3]
    rcases hpi : jsParseInt (cp.drop (MAX_LEVEL_PART_KEY.length + 1)) with _ | n <;>
      rw [hpi] at he
    · rw [he]
      exact ⟨g1, g2, g3, g4, g5, g6⟩
    · by_cases hv : isValidFirstOrMaxLevel n = true
      · have he2 : processCleanPart s cp = { s with maxLevel := n } := by
          rw [he]
          simp [hv]
        rw [he2]
        exact ⟨g1, hv, g3, g4, g5, g6⟩
      · have he2 : processCleanPart s cp = s := by
          rw [he]
          simp [hv]
        rw [he2]
        exact ⟨g1, g2, g3, g4, g5, g6⟩
  by_cases h4 : strStartsWith cp CONTENTS_PART_KEY = true
  · by_cases hlen2 : cp.length ≤ CONTENTS_PART_KEY.length + 1
    · have he : processCleanPart s cp = s := by
        unfold processCleanPart
        rw [if_neg h0, if_neg h1, if_neg h2, if_neg h3, if_pos h4, if_pos hlen2]
      rw [he]
      exact ⟨g1, g2, g3, g4, g5, g6⟩
    · by_cases hvc : isValidContents (cp.drop (CONTENTS_PART_KEY.length + 1)) = true
      · have he : processCleanPart s cp =
            { s with contents := cp.drop (CONTENTS_PART_KEY.length + 1) } := by
          unfold processCleanPart
          rw [if_neg h0, if_neg h1, if_neg h2, if_neg h3, if_pos h4, if_neg hlen2, if_pos hvc]
        rw [he]
        have hdne : cp.drop (CONTENTS_PART_KEY.length + 1) ≠ [] := by
          rw [← List.length_pos, List.length_drop]
          simp only [not_le] at hlen2
          omega
        refine ⟨g1, g2, g3, g4, g5, Or.inr ⟨hdne, ?_, ?_⟩⟩
        · intro hmem
          exact hnc (List.drop_subset _ cp hmem)
        · rw [getLast?_drop_of_ne_nil _ _ hdne]
          rcases hlast with h | h
          · subst h
            simp at h0
          · exact h
      · have he : processCleanPart s cp = s := by
          unfold processCleanPart
          rw [if_neg h0, if_neg h1, if_neg h2, if_neg h3, if_pos h4, if_neg hlen2, if_neg hvc]
        rw [he]
        exact ⟨g1, g2, g3, g4, g5, g6⟩
  · have he : processCleanPart s cp = fmtApply s cp := by
      unfold processCleanPart
      rw [if_neg h0, if_neg h1, if_neg h2, if_neg h3, if_neg h4]
    rw [he]
    exact fmtApply_good s cp ⟨g1, g2, g3, g4, g5, g6⟩

theorem foldl_good (parts : List Str) (s : NumberHeadingsPluginSettings)
    (hp : ∀ p ∈ parts, ',' ∉ p) (hs : GoodSettings s) :
    GoodSettings (parts.foldl processPart s) := by
  induction parts generalizing s with
  | nil => exact hs
  | cons p ps ih =>
    rw [List.foldl_cons]
    refine ih (processPart s p) (fun q hq => hp q (List.mem_cons_of_mem p hq)) ?_
    unfold processPart
    refine processCleanPart_good s (jsTrim p) hs ?_ ?_
    · intro hmem
      exact hp p (List.mem_cons_self p ps) (mem_jsTrim ',' p hmem)
    · exact jsTrim_last_not_ws p

/-- Every record the compact decoder produces lies in the reachable set. -/
theorem parseCompactValue_good (s : Str) : GoodSettings (parseCompactValue s) := by
  unfold parseCompactValue
  refine foldl_good _ DEFAULT_SETTINGS (fun p hp => jsSplit_parts_no_sep ',' s p hp)
    ⟨by decide, by decide, by decide, by decide, by decide, Or.inl rfl⟩

/-! ### Step lemmas: how the loop body handles each encoded chunk -/

theorem jsTrim_keyC (k C : Str) (hk : k ≠ []) (hkh : isJsWS (k.headD 'x') = false)
    (hC : GoodContents C) : jsTrim (k ++ C) = k ++ C := by
  obtain ⟨hCne, _, hClast⟩ := hC
  rcases k with _ | ⟨a, k'⟩
  · exact absurd rfl hk
  have ha : isJsWS a = false := by simpa [List.headD_cons] using hkh
  have hfront : List.dropWhile isJsWS ((a :: k') ++ C) = (a :: k') ++ C := by
    rw [List.cons_append, List.dropWhile_cons, if_neg (by simp [ha])]
  unfold jsTrim
  rw [hfront]
  rcases hr : C.reverse with _ | ⟨c, cs⟩
  · rw [List.reverse_eq_nil_iff] at hr
    exact absurd hr hCne
  · have hgl : C.getLast? = some c := by
      rw [List.getLast?_eq_head?_reverse, hr]
      rfl
    have hc : isJsWS c = false := by
      rw [hgl] at hClast
      simpa using hClast
    have hback : ((a :: k') ++ C).reverse = c :: (cs ++ (a :: k').reverse) := by
      rw [List.reverse_append, hr]
      rfl
    rw [hback, List.dropWhile_cons, if_neg (by simp [hc]), ← hback, List.reverse_reverse]

theorem jsTrim_ws_cons (a : Char) (p : Str) (h : isJsWS a = true) :
    jsTrim (a :: p) = jsTrim p := by
  unfold jsTrim
  rw [List.dropWhile_cons, if_pos h]

theorem processPart_space (s : NumberHeadingsPluginSettings) (p : Str) :
    processPart s (' ' :: p) = processPart s p := by
  unfold processPart
  rw [jsTrim_ws_cons ' ' p (by decide)]

theorem processPart_auto (s : NumberHeadingsPluginSettings) :
    processPart s (("auto").toList) = { s with auto := true } := rfl

theorem processPart_firstLevel (s : NumberHeadingsPluginSettings) (f : Int)
    (hf : isValidFirstOrMaxLevel f = true) :
    processPart s (("first-level ").toList ++ jsIntToStr f) = { s with firstLevel := f } := by
  have hcases : f = 1 ∨ f = 2 ∨ f = 3 ∨ f = 4 ∨ f = 5 ∨ f = 6 := by
    simp [isValidFirstOrMaxLevel] at hf
    omega
  rcases hcases with h | h | h | h | h | h <;> subst h <;> rfl

theorem processPart_max (s : NumberHeadingsPluginSettings) (m : Int)
    (hm : isValidFirstOrMaxLevel m = true) :
    processPart s (("max ").toList ++ jsIntToStr m) = { s with maxLevel := m } := by
  have hcases : m = 1 ∨ m = 2 ∨ m = 3 ∨ m = 4 ∨ m = 5 ∨ m = 6 := by
    simp [isValidFirstOrMaxLevel] at hm
    omega
  rcases hcases with h | h | h | h | h | h <;> subst h <;> rfl

theorem processPart_tail (s : NumberHeadingsPluginSettings) (k : Bool) (s1 s2 sep : Str)
    (h1 : isValidLevelStyle s1 = true) (h2 : isValidLevelStyle s2 = true)
    (h3 : isValidSeparator sep = true) :
    processPart s ((if k then ("_.").toList else []) ++ (s1 ++ ('.' :: (s2 ++ sep)))) =
      { s with skipTopLevel := k, styleLevel1 := s1, styleLevelOther := s2, separator := sep } := by
  have e1 : s1 = ("1").toList ∨ s1 = ("A").toList := by
    simpa [isValidLevelStyle] using h1
  have e2 : s2 = ("1").toList ∨ s2 = ("A").toList := by
    simpa [isValidLevelStyle] using h2
  have e3 : (sep = [':'] ∨ sep = ['.']) ∨ sep = ['-'] := by
    simpa [isValidSeparator] using h3
  rcases e1 with h | h <;> subst h <;> rcases e2 with h | h <;> subst h <;>
    rcases e3 with (h | h) | h <;> subst h <;> cases k <;> rfl

theorem processPart_contents (s : NumberHeadingsPluginSettings) (C : Str)
    (hC : GoodContents C) :
    processPart s (("contents ").toList ++ C) = { s with contents := C } := by
  have htrim : jsTrim (("contents ").toList ++ C) = ("contents ").toList ++ C :=
    jsTrim_keyC (("contents ").toList) C (by decide) (by decide) hC
  obtain ⟨hne, hnc, hlast⟩ := hC
  unfold processPart
  rw [htrim]
  have hlen9 : ((("contents ").toList ++ C) : Str).length = 9 + C.length := by
    rw [List.length_append]
    rfl
  have hCpos : 0 < C.length := List.length_pos.mpr hne
  have hauto : (("contents ").toList ++ C) ≠ AUTO_PART_KEY := by
    intro h
    have h2 : ((("contents ").toList ++ C) : Str).headD 'z' =
        (AUTO_PART_KEY : Str).headD 'z' := by rw [h]
    have h3 : ('c' : Char) = 'a' := h2
    exact absurd h3 (by decide)
  have hdrop : ((("contents ").toList ++ C) : Str).drop (CONTENTS_PART_KEY.length + 1) = C := by
    rw [show CONTENTS_PART_KEY.length + 1 = (("contents ").toList : Str).length from rfl,
      List.drop_left]
  unfold processCleanPart
  rw [if_neg (by omega), if_neg hauto,
    if_neg (by rw [show strStartsWith ((("contents ").toList ++ C) : Str)
      FIRST_LEVEL_PART_KEY = false from rfl]; simp),
    if_neg (by rw [show strStartsWith ((("contents ").toList ++ C) : Str)
      MAX_LEVEL_PART_KEY = false from rfl]; simp),
    if_pos (show strStartsWith ((("contents ").toList ++ C) : Str)
      CONTENTS_PART_KEY = true from rfl),
    if_neg (show ¬(((("contents ").toList ++ C) : Str).length ≤ CONTENTS_PART_KEY.length + 1)
      by rw [hlen9]; show ¬(9 + C.length ≤ 9); omega),
    hdrop, if_pos (by simp [isValidContents, hne])]

theorem comma_not_mem_intToStr (f : Int) (hf : isValidFirstOrMaxLevel f = true) :
    ',' ∉ jsIntToStr f := by
  have hcases : f = 1 ∨ f = 2 ∨ f = 3 ∨ f = 4 ∨ f = 5 ∨ f = 6 := by
    simp [isValidFirstOrMaxLevel] at hf
    omega
  rcases hcases with h | h | h | h | h | h <;> subst h <;> decide

theorem comma_not_mem_style (s1 : Str) (h : isValidLevelStyle s1 = true) : ',' ∉ s1 := by
  have e1 : s1 = ("1").toList ∨ s1 = ("A").toList := by
    simpa [isValidLevelStyle] using h
  rcases e1 with h | h <;> subst h <;> decide

theorem comma_not_mem_sep (sep : Str) (h : isValidSeparator sep = true) : ',' ∉ sep := by
  have e3 : (sep = [':'] ∨ sep = ['.']) ∨ sep = ['-'] := by
    simpa [isValidSeparator] using h
  rcases e3 with (h | h) | h <;> subst h <;> decide

/-- Re-decoding the encoding of any reachable settings record reproduces the
record in all eight fields. -/
theorem parse_encode_of_good (R : NumberHeadingsPluginSettings) (h : GoodSettings R) :
    parseCompactValue (settingsToCompactFrontMatterValue R) = R := by
  obtain ⟨skip, f, m, C, s1, s2, auto, sep⟩ := R
  obtain ⟨hf, hm, hs1, hs2, hsep, hC⟩ := h
  simp only at hf hm hs1 hs2 hsep hC
  have ncf := comma_not_mem_intToStr f hf
  have ncm := comma_not_mem_intToStr m hm
  have ncs1 := comma_not_mem_style s1 hs1
  have ncs2 := comma_not_mem_style s2 hs2
  have ncsep := comma_not_mem_sep sep hsep
  have ec : (((", ").toList) : Str) = [',', ' '] := rfl
  have ea : ((("auto, ").toList) : Str) = ("auto").toList ++ [',', ' '] := rfl
  have nctail : ',' ∉ ((if skip then ("_.").toList else []) ++ (s1 ++ ('.' :: (s2 ++ sep)))) := by
    intro hx
    rcases List.mem_append.mp hx with hx | hx
    · cases skip <;> simp_all
    · rcases List.mem_append.mp hx with hx | hx
      · exact ncs1 hx
      · rcases List.mem_cons.mp hx with hx | hx
        · exact absurd hx (by decide)
        · rcases List.mem_append.mp hx with hx | hx
          · exact ncs2 hx
          · exact ncsep hx
  have hA1 : ',' ∉ ((("first-level ").toList ++ jsIntToStr f) : Str) := by
    intro hx
    rcases List.mem_append.mp hx with hx | hx
    · exact absurd hx (by decide)
    · exact ncf hx
  have hA2 : ',' ∉ ((' ' :: (("max ").toList ++ jsIntToStr m)) : Str) := by
    intro hx
    rcases List.mem_cons.mp hx with hx | hx
    · exact absurd hx (by decide)
    · rcases List.mem_append.mp hx with hx | hx
      · exact absurd hx (by decide)
      · exact ncm hx
  have hA4 : ',' ∉ ((' ' :: ((if skip then ("_.").toList else []) ++
      (s1 ++ ('.' :: (s2 ++ sep))))) : Str) := by
    intro hx
    rcases List.mem_cons.mp hx with hx | hx
    · exact absurd hx (by decide)
    · exact nctail hx
  rcases hC with hCe | hCg
  · -- contents disabled: no contents chunk is emitted
    subst hCe
    cases auto
    · have he : settingsToCompactFrontMatterValue ⟨skip, f, m, [], s1, s2, false, sep⟩ =
          ((("first-level ").toList ++ jsIntToStr f) ++ ',' ::
            ((' ' :: (("max ").toList ++ jsIntToStr m)) ++ ',' ::
              (' ' :: ((if skip then ("_.").toList else []) ++
                (s1 ++ ('.' :: (s2 ++ sep))))))) := by
        simp [settingsToCompactFrontMatterValue, ec]
      have hsplit : jsSplit ',' (settingsToCompactFrontMatterValue
          ⟨skip, f, m, [], s1, s2, false, sep⟩) =
          [(("first-level ").toList ++ jsIntToStr f),
           (' ' :: (("max ").toList ++ jsIntToStr m)),
           (' ' :: ((if skip then ("_.").toList else []) ++ (s1 ++ ('.' :: (s2 ++ sep)))))] := by
        rw [he, jsSplit_append_cons ',' _ _ hA1, jsSplit_append_cons ',' _ _ hA2,
          jsSplit_no_sep ',' _ hA4]
      unfold parseCompactValue
      rw [hsplit]
      simp only [List.foldl_cons, List.foldl_nil, processPart_space]
      rw [processPart_firstLevel _ f hf, processPart_max _ m hm,
        processPart_tail _ skip s1 s2 sep hs1 hs2 hsep]
      try rfl
    · have he : settingsToCompactFrontMatterValue ⟨skip, f, m, [], s1, s2, true, sep⟩ =
          (("auto").toList ++ ',' ::
            ((' ' :: (("first-level ").toList ++ jsIntToStr f)) ++ ',' ::
              ((' ' :: (("max ").toList ++ jsIntToStr m)) ++ ',' ::
                (' ' :: ((if skip then ("_.").toList else []) ++
                  (s1 ++ ('.' :: (s2 ++ sep)))))))) := by
        simp [settingsToCompactFrontMatterValue, ec, ea]
      have hA1' : ',' ∉ ((' ' :: (("first-level ").toList ++ jsIntToStr f)) : Str) := by
        intro hx
        rcases List.mem_cons.mp hx with hx | hx
        · exact absurd hx (by decide)
        · exact hA1 hx
      have hsplit : jsSplit ',' (settingsToCompactFrontMatterValue
          ⟨skip, f, m, [], s1, s2, true, sep⟩) =
          [("auto").toList,
           (' ' :: (("first-level ").toList ++ jsIntToStr f)),
           (' ' :: (("max ").toList ++ jsIntToStr m)),
           (' ' :: ((if skip then ("_.").toList else []) ++ (s1 ++ ('.' :: (s2 ++ sep)))))] := by
        rw [he, jsSplit_append_cons ',' _ _ (by decide), jsSplit_append_cons ',' _ _ hA1',
          jsSplit_append_cons ',' _ _ hA2, jsSplit_no_sep ',' _ hA4]
      unfold parseCompactValue
      rw [hsplit]
      simp only [List.foldl_cons, List.foldl_nil, processPart_space]
      rw [processPart_auto, processPart_firstLevel _ f hf, processPart_max _ m hm,
        processPart_tail _ skip s1 s2 sep hs1 hs2 hsep]
      try rfl
  · -- contents enabled
    have hCpos : 0 < C.length := List.length_pos.mpr hCg.1
    have hA3 : ',' ∉ ((' ' :: (("contents ").toList ++ C)) : Str) := by
      intro hx
      rcases List.mem_cons.mp hx with hx | hx
      · exact absurd hx (by decide)
      · rcases List.mem_append.mp hx with hx | hx
        · exact absurd hx (by decide)
        · exact hCg.2.1 hx
    cases auto
    · have he : settingsToCompactFrontMatterValue ⟨skip, f, m, C, s1, s2, false, sep⟩ =
          ((("first-level ").toList ++ jsIntToStr f) ++ ',' ::
            ((' ' :: (("max ").toList ++ jsIntToStr m)) ++ ',' ::
              ((' ' :: (("contents ").toList ++ C)) ++ ',' ::
                (' ' :: ((if skip then ("_.").toList else []) ++
                  (s1 ++ ('.' :: (s2 ++ sep)))))))) := by
        simp [settingsToCompactFrontMatterValue, ec, hCpos]
      have hsplit : jsSplit ',' (settingsToCompactFrontMatterValue
          ⟨skip, f, m, C, s1, s2, false, sep⟩) =
          [(("first-level ").toList ++ jsIntToStr f),
           (' ' :: (("max ").toList ++ jsIntToStr m)),
           (' ' :: (("contents ").toList ++ C)),
           (' ' :: ((if skip then ("_.").toList else []) ++ (s1 ++ ('.' :: (s2 ++ sep)))))] := by
        rw [he, jsSplit_append_cons ',' _ _ hA1, jsSplit_append_cons ',' _ _ hA2,
          jsSplit_append_cons ',' _ _ hA3, jsSplit_no_sep ',' _ hA4]
      unfold parseCompactValue
      rw [hsplit]
      simp only [List.foldl_cons, List.foldl_nil, processPart_space]
      rw [processPart_firstLevel _ f hf, processPart_max _ m hm,
        processPart_contents _ C hCg,
        processPart_tail _ skip s1 s2 sep hs1 hs2 hsep]
      try rfl
    · have he : settingsToCompactFrontMatterValue ⟨skip, f, m, C, s1, s2, true, sep⟩ =
          (("auto").toList ++ ',' ::
            ((' ' :: (("first-level ").toList ++ jsIntToStr f)) ++ ',' ::
              ((' ' :: (("max ").toList ++ jsIntToStr m)) ++ ',' ::
                ((' ' :: (("contents ").toList ++ C)) ++ ',' ::
                  (' ' :: ((if skip then ("_.").toList else []) ++
                    (s1 ++ ('.' :: (s2 ++ sep))))))))) := by
        simp [settingsToCompactFrontMatterValue, ec, ea, hCpos]
      have hA1' : ',' ∉ ((' ' :: (("first-level ").toList ++ jsIntToStr f)) : Str) := by
        intro hx
        rcases List.mem_cons.mp hx with hx | hx
        · exact absurd hx (by decide)
        · exact hA1 hx
      have hsplit : jsSplit ',' (settingsToCompactFrontMatterValue
          ⟨skip, f, m, C, s1, s2, true, sep⟩) =
          [("auto").toList,
           (' ' :: (("first-level ").toList ++ jsIntToStr f)),
           (' ' :: (("max ").toList ++ jsIntToStr m)),
           (' ' :: (("contents ").toList ++ C)),
           (' ' :: ((if skip then ("_.").toList else []) ++ (s1 ++ ('.' :: (s2 ++ sep)))))] := by
        rw [he, jsSplit_append_cons ',' _ _ (by decide), jsSplit_append_cons ',' _ _ hA1',
          jsSplit_append_cons ',' _ _ hA2, jsSplit_append_cons ',' _ _ hA3,
          jsSplit_no_sep ',' _ hA4]
      unfold parseCompactValue
      rw [hsplit]
      simp only [List.foldl_cons, List.foldl_nil, processPart_space]
      rw [processPart_auto, processPart_firstLevel _ f hf, processPart_max _ m hm,
        processPart_contents _ C hCg,
        processPart_tail _ skip s1 s2 sep hs1 hs2 hsep]
      try rfl

/-- C4: decode-encode-decode round trip — for every string, re-decoding the
encoding of the decoded record reproduces that record in all eight fields;
equivalently, every record the compact decoder returns survives an
encode/decode cycle unchanged. -/
theorem claim4_roundtrip :
    (∀ s : Str,
      parseCompactValue (settingsToCompactFrontMatterValue (parseCompactValue s)) =
        parseCompactValue s) ∧
    (∀ (fm : FrontMatterCache) (R : NumberHeadingsPluginSettings),
      parseCompactFrontMatterSettings fm = some R →
      parseCompactValue (settingsToCompactFrontMatterValue R) = R) := by
  constructor
  · intro s
    exact parse_encode_of_good _ (parseCompactValue_good s)
  · intro fm R hR
    unfold parseCompactFrontMatterSettings at hR
    by_cases ht : jsTruthy (parseFrontMatterEntry fm numberHeadingsKey) = true
    · rw [if_pos ht] at hR
      cases hR
      exact parse_encode_of_good _ (parseCompactValue_good _)
    · rw [if_neg ht] at hR
      cases hR

/-- C4, witness: a concrete metadata block whose decoded record survives the
encode/decode cycle. -/
theorem claim4_roundtrip_witness :
    parseCompactValue (settingsToCompactFrontMatterValue
      { DEFAULT_SETTINGS with auto := true }) =
      { DEFAULT_SETTINGS with auto := true } :=
  claim4_roundtrip.2
    (FrontMatterCache.mk [(numberHeadingsKey, .str (("auto").toList))] 0)
    { DEFAULT_SETTINGS with auto := true } (by decide)
